import Mathlib

/-!
# Verification of the travel-planner streaming ingestion and extraction pipeline

Shallow embedding of `src/app/api/itinerary/route.ts`: the SSE frame reader,
the event interpreter loop of `generateCozeItinerary`, the raw-recovery
extractor, and the section splitter / itinerary synthesizer
`parseCozeResponseToItinerary`.  Strings are modelled as Lean `String`
(lists of characters); JavaScript regular-expression searches are modelled
by equivalent explicit scanning functions; `JSON.parse` by an executable
recursive-descent parser.  Character-count differences between UTF-16 code
units and Unicode code points, and the JavaScript whitespace class versus
`Char.isWhitespace`, are outside the model; no input used below exercises
them.
-/

namespace Travel

/-- The open-brace character, written via its code point. -/
def lbrace : Char := Char.ofNat 123

/-- The close-brace character, written via its code point. -/
def rbrace : Char := Char.ofNat 125

/-- Whitespace test used to model the JavaScript `\s` class and `trim`
(space, tab, newline, carriage return). -/
def isWs (c : Char) : Bool := c = ' ' || c = '\t' || c = '\n' || c = '\r'

/-- `trim` on a character list: drop whitespace from both ends. -/
def trimL (l : List Char) : List Char :=
  ((l.dropWhile isWs).reverse.dropWhile isWs).reverse

/-- Model of JavaScript `String.prototype.trim`. -/
def trimS (s : String) : String := ⟨trimL s.data⟩

/-- Does `pat` occur as a prefix of `l` at position `i`. -/
def isPrefixAt (pat l : List Char) (i : Nat) : Bool :=
  pat.isPrefixOf (l.drop i)

/-- Scan indices `i, i+1, ...` (at most `fuel` of them) for the first index
satisfying `p`.  Models leftmost matching of an anchored pattern. -/
def scanIdx (p : Nat → Bool) : Nat → Nat → Option Nat
  | _, 0 => none
  | i, fuel + 1 => if p i then some i else scanIdx p (i + 1) fuel

/-- First index at or after `start` where `pat` occurs in `l`. -/
def findSub (pat l : List Char) (start : Nat) : Option Nat :=
  scanIdx (fun i => isPrefixAt pat l i) start (l.length + 1)

/-- Model of JavaScript `String.prototype.includes`. -/
def containsSubS (s pat : String) : Bool :=
  (findSub pat.data s.data 0).isSome

/-- Global leftmost non-overlapping replacement of the literal pattern
`pat` by `rep`, modelling `String.prototype.replace` with a `g`-flagged
literal pattern. -/
def replaceGo (pat rep : List Char) : Nat → List Char → List Char
  | 0, s => s
  | _ + 1, [] => []
  | fuel + 1, c :: r =>
    if pat ≠ [] ∧ pat.isPrefixOf (c :: r) then
      rep ++ replaceGo pat rep fuel ((c :: r).drop pat.length)
    else
      c :: replaceGo pat rep fuel r

def replaceAllL (pat rep : List Char) (s : List Char) : List Char :=
  replaceGo pat rep s.length s

/-- String version of `replaceAllL`. -/
def replaceAllS (pat rep s : String) : String :=
  ⟨replaceAllL pat.data rep.data s.data⟩

/-- Split a character list on every occurrence of the character `sep`,
modelling JavaScript `split` with a one-character separator. -/
def splitOnCharL (sep : Char) : List Char → List (List Char)
  | [] => [[]]
  | c :: r =>
    if c = sep then
      [] :: splitOnCharL sep r
    else
      match splitOnCharL sep r with
      | [] => [[c]]
      | p :: ps => (c :: p) :: ps

/-- String version of `splitOnCharL`. -/
def splitOnCharS (sep : Char) (s : String) : List String :=
  (splitOnCharL sep s.data).map (⟨·⟩)

/-- Join a list of strings with a separator, modelling `Array.join`. -/
def joinSep (sep : String) : List String → String
  | [] => ""
  | [x] => x
  | x :: r => x ++ sep ++ joinSep sep r

/-- Model of JavaScript `parseInt` (radix 10): skip leading whitespace, an
optional sign, then parse a maximal run of leading decimal digits; `none`
models `NaN`.  (The hexadecimal `0x` auto-radix of `parseInt` is outside
the model; no day-count input uses it.) -/
def parseIntJS (l : List Char) : Option Int :=
  let l1 := l.dropWhile isWs
  let signed : Int × List Char :=
    match l1 with
    | '-' :: r => (-1, r)
    | '+' :: r => (1, r)
    | _ => (1, l1)
  let ds := signed.2.takeWhile Char.isDigit
  if ds = [] then none
  else some (signed.1 * (ds.foldl (fun a c => a * 10 + (c.toNat - 48)) 0 : Nat))

/-- Day-count computation of `parseCozeResponseToItinerary`
(route.ts lines 654-661): if the day string contains a hyphen, destructure
the split as `[_, maxDays]` (the element at index 1) and take
`maxDays || 3`; else `parseInt(days) || 3`.  `x || 3` replaces both `NaN`
(parse failure, modelled `none`) and `0` by 3. -/
def parseDays (days : String) : Int :=
  if days.data.contains '-' then
    let parts := (splitOnCharL '-' days.data).map parseIntJS
    match parts[1]? with
    | some (some n) => if n = 0 then 3 else n
    | some none => 3
    | none => 3
  else
    match parseIntJS days.data with
    | some n => if n = 0 then 3 else n
    | none => 3

/-- The day-count rule in the words of the claim (C1): with a hyphen, the
maximum of the two integers parsed from the parts around the hyphen,
defaulting to 3 if parsing fails; without, the plain parsed integer,
defaulting to 3 on parse failure.  Stated for comparison with `parseDays`,
which is the translation of the source. -/
def parseDaysClaimed (days : String) : Int :=
  if days.data.contains '-' then
    match splitOnCharL '-' days.data with
    | a :: b :: _ =>
      match parseIntJS a, parseIntJS b with
      | some m, some n => max m n
      | _, _ => 3
    | _ => 3
  else
    match parseIntJS days.data with
    | some n => n
    | none => 3

/-- JSON values, the payload shapes handled by the event interpreter.
Numbers are kept as a decimal mantissa and a power-of-ten exponent. -/
inductive Json where
  | null
  | bool (b : Bool)
  | num (mantissa : Int) (exp10 : Int)
  | str (s : String)
  | arr (elems : List Json)
  | obj (fields : List (String × Json))
deriving Repr

/-- JavaScript truthiness of a JSON value. -/
def jsTruthy : Json → Bool
  | Json.null => false
  | Json.bool b => b
  | Json.num m _ => m ≠ 0
  | Json.str s => s ≠ ""
  | Json.arr _ => true
  | Json.obj _ => true

/-- Last binding of key `k`, modelling JavaScript property lookup on an
object parsed from JSON with possibly duplicated keys (last one wins). -/
def lookupLast (k : String) : List (String × Json) → Option Json
  | [] => none
  | (k', v) :: r =>
    match lookupLast k r with
    | some w => some w
    | none => if k' = k then some v else none

/-- Property access `j[k]`;  `none` models `undefined`. -/
def getField (j : Json) (k : String) : Option Json :=
  match j with
  | Json.obj kvs => lookupLast k kvs
  | _ => none

/-- Is the string `s` the value of `j`. -/
def isStrEq (j : Json) (s : String) : Bool :=
  match j with
  | Json.str t => t = s
  | _ => false

/-- `typeof v === 'object'` in JavaScript: objects, arrays and `null`. -/
def isObjLike : Json → Bool
  | Json.obj _ => true
  | Json.arr _ => true
  | Json.null => true
  | _ => false

/-- Field access `j[k1]?.[k2]` yielding a truthy string: used to model the
source's `dataObj.x?.y` accesses whose results are assigned to string
accumulators after a truthiness check.  (The source would also accept a
truthy non-string value there; the wire format only carries strings in
these positions, and no claim depends on the non-string case.) -/
def strField2 (j : Json) (k1 k2 : String) : Option String :=
  match getField j k1 with
  | some v =>
    match getField v k2 with
    | some (Json.str s) => if s ≠ "" then some s else none
    | _ => none
  | none => none

/-- Top-level field `j[k]` yielding a truthy string (see `strField2`). -/
def strField1 (j : Json) (k : String) : Option String :=
  match getField j k with
  | some (Json.str s) => if s ≠ "" then some s else none
  | _ => none

/-- `j[k1]?.[k2]` without a type restriction, for the error payloads
`dataObj.error?.code` and `dataObj.error?.message`. -/
def jfield2 (j : Json) (k1 k2 : String) : Option Json :=
  match getField j k1 with
  | some v => getField v k2
  | none => none

/-! ## JSON.parse

Recursive-descent parser for the JSON grammar, modelling `JSON.parse`:
`none` models a thrown `SyntaxError`.  Recursion is bounded by an explicit
fuel argument, always instantiated large enough (`3 * length + 3`) that it
never runs out on any input.  Lone `\uXXXX` surrogate escapes, which
JavaScript would keep as unpaired UTF-16 units, fall outside Lean `Char`
and are mapped to NUL; no input below uses them. -/

/-- Skip JSON whitespace. -/
def skipWs (l : List Char) : List Char :=
  l.dropWhile (fun c => c = ' ' || c = '\t' || c = '\n' || c = '\r')

/-- Hexadecimal digit value. -/
def hexVal (c : Char) : Option Nat :=
  if '0' ≤ c ∧ c ≤ '9' then some (c.toNat - 48)
  else if 'a' ≤ c ∧ c ≤ 'f' then some (c.toNat - 87)
  else if 'A' ≤ c ∧ c ≤ 'F' then some (c.toNat - 55)
  else none

/-- Parse exactly four hexadecimal digits. -/
def parseHex4 : List Char → Option (Nat × List Char)
  | a :: b :: c :: d :: r =>
    match hexVal a, hexVal b, hexVal c, hexVal d with
    | some x, some y, some z, some w => some (((x * 16 + y) * 16 + z) * 16 + w, r)
    | _, _, _, _ => none
  | _ => none

/-- Single-character JSON string escapes (`\uXXXX` is handled separately). -/
def escChar (e : Char) : Option Char :=
  if e = '"' then some '"'
  else if e = '\\' then some '\\'
  else if e = '/' then some '/'
  else if e = 'b' then some (Char.ofNat 8)
  else if e = 'f' then some (Char.ofNat 12)
  else if e = 'n' then some '\n'
  else if e = 'r' then some '\r'
  else if e = 't' then some '\t'
  else none

/-- Parse the body of a JSON string after the opening quote; returns the
decoded characters and the input after the closing quote. -/
def parseJString : List Char → Option (List Char × List Char)
  | [] => none
  | '"' :: r => some ([], r)
  | '\\' :: 'u' :: a :: b :: c :: d :: r =>
    match hexVal a, hexVal b, hexVal c, hexVal d with
    | some x, some y, some z, some w =>
      match parseJString r with
      | some (cs, rest) => some (Char.ofNat (((x * 16 + y) * 16 + z) * 16 + w) :: cs, rest)
      | none => none
    | _, _, _, _ => none
  | '\\' :: e :: r =>
    match escChar e with
    | some ch =>
      match parseJString r with
      | some (cs, rest) => some (ch :: cs, rest)
      | none => none
    | none => none
  | c :: r =>
    if c = '\\' then none
    else if c.toNat < 32 then none
    else
      match parseJString r with
      | some (cs, rest) => some (c :: cs, rest)
      | none => none

/-- Decimal value of a digit run. -/
def digitsVal (ds : List Char) : Nat :=
  ds.foldl (fun a c => a * 10 + (c.toNat - 48)) 0

/-- Parse a JSON number starting at the current position (which is known
to start with `-` or a digit): strict JSON grammar, no leading zeros, with
optional fraction and exponent.  Yields mantissa and base-ten exponent. -/
def parseJNumber (l : List Char) : Option (Json × List Char) :=
  let signSplit : Bool × List Char :=
    match l with
    | '-' :: r => (true, r)
    | _ => (false, l)
  let neg := signSplit.1
  let l1 := signSplit.2
  let ip := l1.takeWhile Char.isDigit
  if ip = [] then none
  else if ip.length > 1 ∧ ip.headD '0' = '0' then none
  else
    let l2 := l1.drop ip.length
    let fracRes : Option (List Char × List Char) :=
      match l2 with
      | '.' :: r =>
        let f := r.takeWhile Char.isDigit
        if f = [] then none else some (f, r.drop f.length)
      | _ => some ([], l2)
    match fracRes with
    | none => none
    | some (fp, l3) =>
      let expRes : Option (Int × List Char) :=
        match l3 with
        | 'e' :: r | 'E' :: r =>
          let signSplitE : Int × List Char :=
            match r with
            | '-' :: r2 => (-1, r2)
            | '+' :: r2 => (1, r2)
            | _ => (1, r)
          let ed := signSplitE.2.takeWhile Char.isDigit
          if ed = [] then none
          else some (signSplitE.1 * (digitsVal ed : Nat), signSplitE.2.drop ed.length)
        | _ => some (0, l3)
      match expRes with
      | none => none
      | some (e, l4) =>
        let mant : Int := (digitsVal ip * 10 ^ fp.length + digitsVal fp : Nat)
        some (Json.num (if neg then -mant else mant) (e - fp.length), l4)

mutual

/-- Parse one JSON value (after skipping whitespace). -/
def parseVal : Nat → List Char → Option (Json × List Char)
  | 0, _ => none
  | fuel + 1, l =>
    match skipWs l with
    | [] => none
    | c :: r =>
      if c = '"' then
        match parseJString r with
        | some (cs, rest) => some (Json.str ⟨cs⟩, rest)
        | none => none
      else if c = lbrace then
        match skipWs r with
        | c2 :: r2 =>
          if c2 = rbrace then some (Json.obj [], r2)
          else parseMembers fuel (c2 :: r2) []
        | [] => none
      else if c = '[' then
        match skipWs r with
        | c2 :: r2 =>
          if c2 = ']' then some (Json.arr [], r2)
          else parseElems fuel (c2 :: r2) []
        | [] => none
      else if c = 't' then
        if isPrefixAt "rue".data r 0 then some (Json.bool true, r.drop 3) else none
      else if c = 'f' then
        if isPrefixAt "alse".data r 0 then some (Json.bool false, r.drop 4) else none
      else if c = 'n' then
        if isPrefixAt "ull".data r 0 then some (Json.null, r.drop 3) else none
      else if c = '-' ∨ c.isDigit then
        parseJNumber (c :: r)
      else none

/-- Parse the members of an object after the opening brace, accumulating
parsed pairs in order. -/
def parseMembers : Nat → List Char → List (String × Json) → Option (Json × List Char)
  | 0, _, _ => none
  | fuel + 1, l, acc =>
    match skipWs l with
    | c :: r =>
      if c = '"' then
        match parseJString r with
        | some (k, r1) =>
          match skipWs r1 with
          | ':' :: r2 =>
            match parseVal fuel r2 with
            | some (v, r3) =>
              match skipWs r3 with
              | ',' :: r4 => parseMembers fuel r4 (acc ++ [(⟨k⟩, v)])
              | c5 :: r5 =>
                if c5 = rbrace then some (Json.obj (acc ++ [(⟨k⟩, v)]), r5) else none
              | [] => none
            | none => none
          | _ => none
        | none => none
      else none
    | [] => none

/-- Parse the elements of an array after the opening bracket. -/
def parseElems : Nat → List Char → List Json → Option (Json × List Char)
  | 0, _, _ => none
  | fuel + 1, l, acc =>
    match parseVal fuel l with
    | some (v, r) =>
      match skipWs r with
      | ',' :: r2 => parseElems fuel r2 (acc ++ [v])
      | ']' :: r2 => some (Json.arr (acc ++ [v]), r2)
      | _ => none
    | none => none

end

/-- Model of `JSON.parse`: parse one value and require only whitespace to
remain. -/
def parseJson (s : String) : Option Json :=
  match parseVal (3 * s.data.length + 3) s.data with
  | some (j, rest) => if skipWs rest = [] then some j else none
  | none => none

/-- First key of `keys` whose value in `kvs` is a string with non-empty
trim, returning that (untrimmed) value: the content-key probe shared by
`findTextContent` (route.ts line 477, keys content/text/value/answer/message)
and the raw-recovery field scan (line 578, keys
content/text/answer/value/message). -/
def pickContentKey (kvs : List (String × Json)) : List String → Option String
  | [] => none
  | k :: ks =>
    match lookupLast k kvs with
    | some (Json.str s) => if trimS s ≠ "" then some s else pickContentKey kvs ks
    | _ => pickContentKey kvs ks

mutual

/-- `findTextContent` of the event interpreter (route.ts lines 473-493):
check the five content keys at this level, then depth-first recurse into
every field whose value has `typeof 'object'` (objects, arrays, null). -/
def findTextContent : Json → Option String
  | Json.obj kvs =>
    match pickContentKey kvs ["content", "text", "value", "answer", "message"] with
    | some s => some s
    | none => ftcPairs kvs
  | Json.arr es => ftcElems es
  | _ => none

/-- Recurse over object fields in insertion order. -/
def ftcPairs : List (String × Json) → Option String
  | [] => none
  | (_, v) :: r =>
    match (if isObjLike v then findTextContent v else none) with
    | some s => some s
    | none => ftcPairs r

/-- Recurse over array elements in order. -/
def ftcElems : List Json → Option String
  | [] => none
  | v :: r =>
    match (if isObjLike v then findTextContent v else none) with
    | some s => some s
    | none => ftcElems r

end

/-- A string value whose trimmed length exceeds 20 (the raw-recovery
heuristic separating answer text from keys and ids). -/
def strLong (v : Json) : Option String :=
  match v with
  | Json.str s => if 20 < (trimS s).length then some s else none
  | _ => none

mutual

/-- `findText` of the raw-recovery extractor (route.ts lines 589-601): a
single pass over the fields in order, returning the first string field
whose trimmed length exceeds 20, recursing into object-typed fields.
Recursion is bounded by an explicit fuel argument, instantiated with
`sizeOf`, which always suffices (every step strictly shrinks the
payload). -/
def ftGo : Nat → Json → Option String
  | 0, _ => none
  | fuel + 1, Json.obj kvs => ftGoPairs fuel kvs
  | fuel + 1, Json.arr es => ftGoElems fuel es
  | _ + 1, _ => none

/-- Field pass of `findText`. -/
def ftGoPairs : Nat → List (String × Json) → Option String
  | 0, _ => none
  | _ + 1, [] => none
  | fuel + 1, (_, v) :: r =>
    match strLong v with
    | some s => some s
    | none =>
      match (if isObjLike v then ftGo fuel v else none) with
      | some s => some s
      | none => ftGoPairs fuel r

/-- Element pass of `findText`. -/
def ftGoElems : Nat → List Json → Option String
  | 0, _ => none
  | _ + 1, [] => none
  | fuel + 1, v :: r =>
    match strLong v with
    | some s => some s
    | none =>
      match (if isObjLike v then ftGo fuel v else none) with
      | some s => some s
      | none => ftGoElems fuel r

end

mutual

/-- Computable size of a JSON value, used as recursion fuel. -/
def jsonSize : Json → Nat
  | Json.obj kvs => 1 + jsonSizePairs kvs
  | Json.arr es => 1 + jsonSizeElems es
  | _ => 1

def jsonSizePairs : List (String × Json) → Nat
  | [] => 1
  | (_, v) :: r => 1 + jsonSize v + jsonSizePairs r

def jsonSizeElems : List Json → Nat
  | [] => 1
  | v :: r => 1 + jsonSize v + jsonSizeElems r

end

/-- Entry point of the nested search of raw recovery. -/
def findText (j : Json) : Option String := ftGo (jsonSize j) j

/-! ## Regular-expression models

Each JavaScript regex of the source is modelled by an explicit leftmost
scan reproducing its match semantics on the pattern actually used. -/

/-- One of the two colon variants `[：:]` accepted after a section word. -/
def isCn (c : Char) : Bool := c = '：' || c = ':'

/-- Does the anchor `word[：:]` match in `l` at position `i`. -/
def anchorColonAt (w l : List Char) (i : Nat) : Bool :=
  isPrefixAt w l i &&
    (match (l.drop (i + w.length)).head? with
     | some c => isCn c
     | none => false)

/-- First position at or after `start` where the anchor `w[：:]` occurs. -/
def findAC (w l : List Char) (start : Nat) : Option Nat :=
  scanIdx (fun i => anchorColonAt w l i) start (l.length + 1)

/-- The three section words. -/
def wTitle : List Char := "旅行推荐".data
def wPlan : List Char := "行程规划".data
def wHigh : List Char := "旅行红黑榜".data

/-- Model of the fast-path pattern
`旅行推荐[：:]\s*[\s\S]*?行程规划[：:]\s*[\s\S]*?旅行红黑榜[：:]\s*[\s\S]*`
(route.ts line 411): `match[0]` runs from the first `旅行推荐[：:]` that is
followed (in order) by the other two anchors, to the end of the string;
`none` models a failed match. -/
def travelMatchColon (s : String) : Option String :=
  match scanIdx
      (fun i => anchorColonAt wTitle s.data i &&
        (match findAC wPlan s.data (i + wTitle.length + 1) with
         | some q => (findAC wHigh s.data (q + wPlan.length + 1)).isSome
         | none => false))
      0 (s.data.length + 1) with
  | some p => some ⟨s.data.drop p⟩
  | none => none

/-- Escape cleanup applied to the fast-path match (route.ts lines 415-418):
three sequential global replaces `\n`→newline, `\"`→quote, `\\`→backslash. -/
def cleanEscapes (s : String) : String :=
  replaceAllS "\\\\" "\\" (replaceAllS "\\\"" "\"" (replaceAllS "\\n" "\n" s))

/-- Model of the pattern `"content"\s*:\s*"([^"]+)"` (route.ts line 430):
find the leftmost `"content"` followed by optional whitespace, a colon,
optional whitespace, a quote, then capture the maximal non-empty run of
non-quote characters closed by a quote. -/
def contentCaptureAt (l : List Char) (j : Nat) : Option (List Char) :=
  match (l.drop j).dropWhile isWs with
  | ':' :: r =>
    match r.dropWhile isWs with
    | '"' :: r2 =>
      let cap := r2.takeWhile (fun c => ¬(c = '"'))
      if cap ≠ [] ∧ cap.length < r2.length then some cap else none
    | _ => none
  | _ => none

/-- The quoted literal `"content"` (nine characters). -/
def contentLit : List Char := '"' :: "content".data ++ ['"']

/-- Leftmost full match of the `"content"` capture pattern. -/
def contentCapture (s : String) : Option String :=
  match scanIdx
      (fun i => isPrefixAt contentLit s.data i && (contentCaptureAt s.data (i + contentLit.length)).isSome)
      0 (s.data.length + 1) with
  | some i =>
    match contentCaptureAt s.data (i + contentLit.length) with
    | some cap => some ⟨cap⟩
    | none => none
  | none => none

/-- Escape cleanup applied to the `"content"` capture (route.ts line 432):
`\n`→newline then `\"`→quote. -/
def cleanNQ (s : String) : String :=
  replaceAllS "\\\"" "\"" (replaceAllS "\\n" "\n" s)

/-- Model of the raw-recovery pattern
`旅行推荐[\s\S]*?行程规划[\s\S]*?旅行红黑榜[\s\S]*` (route.ts line 624):
like `travelMatchColon` but without the colon requirement. -/
def travelMatchRaw (s : String) : Option String :=
  match scanIdx
      (fun i => isPrefixAt wTitle s.data i &&
        (match findSub wPlan s.data (i + wTitle.length) with
         | some q => (findSub wHigh s.data (q + wPlan.length)).isSome
         | none => false))
      0 (s.data.length + 1) with
  | some p => some ⟨s.data.drop p⟩
  | none => none

/-- Model of `buffer.match(/\{[\s\S]*?\}/g)` (route.ts line 569): the
non-overlapping leftmost matches, each running from an opening brace to
the first closing brace after it. -/
def braceGo : Nat → List Char → List (List Char)
  | 0, _ => []
  | _ + 1, [] => []
  | fuel + 1, c :: r =>
    if c = lbrace then
      if (r.takeWhile (fun d => ¬(d = rbrace))).length < r.length then
        (lbrace :: r.takeWhile (fun d => ¬(d = rbrace)) ++ [rbrace]) ::
          braceGo fuel (r.drop ((r.takeWhile (fun d => ¬(d = rbrace))).length + 1))
      else []
    else braceGo fuel r

def braceMatches (l : List Char) : List (List Char) :=
  braceGo l.length l

/-! ## Section Splitter (inside `parseCozeResponseToItinerary`) -/

/-- Extraction of the 旅行推荐 section (route.ts line 671, pattern
`旅行推荐[：:]\s*([\s\S]*?)(?=\s*行程规划[：:])`): the leftmost `旅行推荐[：:]`
anchor that is followed by a `行程规划[：:]` anchor, capturing lazily up to
that following anchor.  The source trims the capture; trimming the whole
text between the two anchors gives the same result, since the regex
whitespace padding around the lazy capture is removed by the trim. -/
def extractTitle (s : String) : String :=
  match scanIdx
      (fun i => anchorColonAt wTitle s.data i && (findAC wPlan s.data (i + wTitle.length + 1)).isSome)
      0 (s.data.length + 1) with
  | some p =>
    match findAC wPlan s.data (p + wTitle.length + 1) with
    | some q => trimS ⟨(s.data.drop (p + wTitle.length + 1)).take (q - (p + wTitle.length + 1))⟩
    | none => ""
  | none => ""

/-- Extraction of the 行程规划 section (route.ts line 679, pattern
`行程规划[：:]\s*([\s\S]*?)(?=\s*旅行红黑榜[：:])`). -/
def extractPlan (s : String) : String :=
  match scanIdx
      (fun i => anchorColonAt wPlan s.data i && (findAC wHigh s.data (i + wPlan.length + 1)).isSome)
      0 (s.data.length + 1) with
  | some p =>
    match findAC wHigh s.data (p + wPlan.length + 1) with
    | some q => trimS ⟨(s.data.drop (p + wPlan.length + 1)).take (q - (p + wPlan.length + 1))⟩
    | none => ""
  | none => ""

/-- Extraction of the 旅行红黑榜 section (route.ts line 687, pattern
`旅行红黑榜[：:]\s*([\s\S]*?)$`): from the leftmost anchor to the end of the
text, trimmed. -/
def extractHighlights (s : String) : String :=
  match findAC wHigh s.data 0 with
  | some p => trimS ⟨s.data.drop (p + wHigh.length + 1)⟩
  | none => ""

/-- Index of the last newline in a whitespace run known to contain one. -/
def lastNlIdx (run : List Char) : Nat :=
  run.length - 1 - (run.reverse.takeWhile (fun c => ¬(c = '\n'))).length

/-- Split on the regex `\n\s*\n` (route.ts line 700): each separator is a
newline, a greedy whitespace run, and a final newline; with backtracking,
the matched separator runs from a newline through the last newline of the
maximal whitespace run that follows it. -/
def paraGo : Nat → List Char → List (List Char)
  | 0, s => [s]
  | _ + 1, [] => [[]]
  | fuel + 1, c :: r =>
    if c = '\n' ∧ (r.takeWhile isWs).contains '\n' then
      [] :: paraGo fuel (r.drop (lastNlIdx (r.takeWhile isWs) + 1))
    else
      match paraGo fuel r with
      | [] => [[c]]
      | p :: ps => (c :: p) :: ps

def paraSplit (s : List Char) : List (List Char) :=
  paraGo s.length s

/-- Paragraphs of the fallback cascade, as strings. -/
def splitParas (s : String) : List String :=
  (paraSplit s.data).map (⟨·⟩)

/-- The three named sections of an itinerary text. -/
structure Sections where
  title : String
  plan : String
  highlights : String
deriving Repr, DecidableEq

/-- The Section Splitter (route.ts lines 663-722): anchored extraction of
the three sections, then — only when all three came out empty — the
cascade: blank-line paragraphs if at least three, else first line plus
rest if at least two lines, else the whole text as plan with placeholder
title and highlights. -/
def splitSections (cozeText : String) : Sections :=
  if extractTitle cozeText = "" ∧ extractPlan cozeText = "" ∧ extractHighlights cozeText = "" then
    if (splitParas cozeText).length ≥ 3 then
      { title := (splitParas cozeText).headD ""
        plan := joinSep "\n\n" (((splitParas cozeText).drop 1).dropLast)
        highlights := (splitParas cozeText).getLastD "" }
    else
      if (splitOnCharS '\n' cozeText).length > 1 then
        { title := (splitOnCharS '\n' cozeText).headD ""
          plan := joinSep "\n" ((splitOnCharS '\n' cozeText).drop 1)
          highlights := "" }
      else
        { title := "你的旅行计划", plan := cozeText, highlights := "根据AI生成" }
  else
    { title := extractTitle cozeText
      plan := extractPlan cozeText
      highlights := extractHighlights cozeText }

/-! ## Itinerary Synthesizer -/

/-- Caller-supplied trip parameters (route.ts `TravelParams`); optional
fields are `Option`, `none` modelling an absent (undefined) field. -/
structure TravelParams where
  location : String
  destination : Option String := none
  days : String
  travelers : Option String := none
  preference : Option String := none
  budget : Option String := none
deriving Repr

/-- The synthesized itinerary fields covered by the claims (route.ts
lines 746-762).  Date formatting from the wall clock, the destination
inference of lines 724-738, and the fixed daily-activity and
recommendation placeholders are outside the model: no claim refers to
them, and `days` carries the value that drives the date arithmetic. -/
structure ItineraryCore where
  summary : String
  budget : String
  title : String
  plan : String
  highlights : String
  days : Int
deriving Repr

/-- `parseCozeResponseToItinerary` (route.ts lines 653-786) restricted to
the claim-relevant fields: day count via `parseDays`, sections via
`splitSections`, summary as title or a 200-character prefix with ellipsis,
budget interpolated from any truthy budget parameter. -/
def parseCozeResponseToItinerary (cozeText : String) (params : TravelParams) : ItineraryCore :=
  let days := parseDays params.days
  let secs := splitSections cozeText
  let summary0 := if secs.title ≠ "" then secs.title else ⟨cozeText.data.take 200⟩
  let summary := if summary0.length ≥ 200 then summary0 ++ "..." else summary0
  let budget :=
    match params.budget with
    | some b => if b ≠ "" then "预算约" ++ b ++ "元人民币" else "预算不限"
    | none => "预算不限"
  { summary := summary
    budget := budget
    title := secs.title
    plan := secs.plan
    highlights := secs.highlights
    days := days }

/-! ## Frame Reader -/

/-- One SSE event record: `eventType` defaults to `"message"`, `data`
defaults to empty. -/
structure Frame where
  eventType : String := "message"
  data : String := ""
deriving Repr, DecidableEq

/-- Parse one line-group into a frame (route.ts lines 375-387): scan the
lines for `event:` and `data:` prefixes, trimming the remainders; later
occurrences overwrite earlier ones.  `none` models the `continue` on a
group that is empty after trim. -/
def frameOfChunk (chunk : String) : Option Frame :=
  if trimS chunk = "" then none
  else
    some ((splitOnCharS '\n' chunk).foldl
      (fun fr line =>
        if isPrefixAt "event:".data line.data 0 then
          { fr with eventType := trimS ⟨line.data.drop 6⟩ }
        else if isPrefixAt "data:".data line.data 0 then
          { fr with data := trimS ⟨line.data.drop 5⟩ }
        else fr)
      { eventType := "message", data := "" })

/-- Split a buffer on every occurrence of the frame delimiter, two
consecutive newlines, leftmost and non-overlapping (route.ts lines
368-371): all pieces but the last are complete line-groups, the last is
the unconsumed trailing buffer. -/
def splitOnNN : List Char → List (List Char)
  | [] => [[]]
  | '\n' :: '\n' :: r => [] :: splitOnNN r
  | c :: r =>
    match splitOnNN r with
    | [] => [[c]]
    | p :: ps => (c :: p) :: ps

/-- Frames found in a buffer together with the trailing remainder. -/
def framesOf (buffer : String) : List Frame × String :=
  let parts := (splitOnNN buffer.data).map (fun l => (⟨l⟩ : String))
  (parts.dropLast.filterMap frameOfChunk, parts.getLastD "")

/-! ## Event Interpreter and Stream Accumulator -/

/-- The mutable accumulator of one ingestion call (route.ts lines 228-230
and 342-345). -/
structure State where
  deltaCount : Nat
  completeResponse : String
  accumulatedResponse : String
  isFinished : Bool
deriving Repr, DecidableEq

/-- The accumulator at the start of an ingestion call. -/
def initState : State :=
  { deltaCount := 0, completeResponse := "", accumulatedResponse := "", isFinished := false }

/-- The typed failures of the ingestion core. -/
inductive CozeError where
  | emptyResponse
  | streamError (payload : Json)
  | cozeInnerError (code : Option Json) (msg : Option Json)
deriving Repr

/-- The value the fast path would assign (route.ts lines 409-444): the
three-anchor pattern match of the raw event data, cleaned of escapes;
otherwise the `"content"` capture, `object.value`, or `message.content`;
`none` when the assigned value would be empty (falsy), in which case the
source leaves `completeResponse` unchanged. -/
def fastExtract (raw : String) (j : Json) : Option String :=
  let contentPath : Option String :=
    let ec : String :=
      match contentCapture raw with
      | some c =>
        if c ≠ "" then cleanNQ c
        else
          match strField2 j "object" "value" with
          | some v => v
          | none => (strField2 j "message" "content").getD ""
      | none =>
        match strField2 j "object" "value" with
        | some v => v
        | none => (strField2 j "message" "content").getD ""
    if ec = "" then none else some ec
  match travelMatchColon raw with
  | some m => if m ≠ "" then some (cleanEscapes m) else contentPath
  | none => contentPath

/-- Apply the fast path: set `completeResponse` and `isFinished` when an
extraction value was found. -/
def applyFastPath (raw : String) (j : Json) (st : State) : State :=
  match fastExtract raw j with
  | some t => { st with completeResponse := t, isFinished := true }
  | none => st

/-- Is the field `type` of the payload exactly the string `answer`
(route.ts line 402, `dataObj.type === 'answer'`). -/
def typeIsAnswer (j : Json) : Bool :=
  match getField j "type" with
  | some (Json.str s) => s = "answer"
  | _ => false

/-- The answer-delta branch (route.ts lines 402-446): on a
`conversation.message.delta` event whose payload type is `answer`,
increment `deltaCount`; when the incremented count is exactly 2, run the
fast path. -/
def stepFast (st : State) (f : Frame) (j : Json) : State :=
  if f.eventType = "conversation.message.delta" && typeIsAnswer j then
    if st.deltaCount + 1 = 2 then
      applyFastPath f.data j { st with deltaCount := st.deltaCount + 1 }
    else { st with deltaCount := st.deltaCount + 1 }
  else st

/-- `dataObj.type || 'message.delta'` (route.ts line 450). -/
def messageTypeOf (j : Json) : Json :=
  match getField j "type" with
  | some t => if jsTruthy t then t else Json.str "message.delta"
  | none => Json.str "message.delta"

/-- The incremental-content probe (route.ts lines 454-496): the priority
chain `message.content`, `object.value`, `delta.content`, `content`,
`answer` (any string), `text`, then — if still empty — the recursive
`findTextContent` search. -/
def deltaContentOf (j : Json) : String :=
  let d : String :=
    match strField2 j "message" "content" with
    | some s => s
    | none =>
      match strField2 j "object" "value" with
      | some s => s
      | none =>
        match strField2 j "delta" "content" with
        | some s => s
        | none =>
          match strField1 j "content" with
          | some s => s
          | none =>
            match getField j "answer" with
            | some (Json.str a) => a
            | _ => (strField1 j "text").getD ""
  if d = "" then (findTextContent j).getD "" else d

/-- The completion test (route.ts lines 510-512): subtype
`generate_answer_finish`, or a truthy `message` whose `is_finish` is
exactly `true`, or an event type containing `conversation.message.completed`. -/
def isFinishIndicator (eventType : String) (j : Json) (mt : Json) : Bool :=
  isStrEq mt "generate_answer_finish"
    || (match getField j "message" with
        | some m =>
          jsTruthy m &&
            (match getField m "is_finish" with
             | some (Json.bool true) => true
             | _ => false)
        | none => false)
    || containsSubS eventType "conversation.message.completed"

/-- The regular event dispatch (route.ts lines 449-540): content
accumulation, finish indicators, protocol errors, and the no-op event
kinds. -/
def stepRegular (st : State) (f : Frame) (j : Json) : Except CozeError State :=
  if f.eventType = "message" || containsSubS f.eventType "conversation.message.delta" then
    if isStrEq (messageTypeOf j) "message.delta" || isStrEq (messageTypeOf j) "answer" then
      .ok (if deltaContentOf j ≠ "" then
            { st with accumulatedResponse := st.accumulatedResponse ++ deltaContentOf j }
          else st)
    else if isFinishIndicator f.eventType j (messageTypeOf j) then
      .ok { st with isFinished := true }
    else if isStrEq (messageTypeOf j) "error" then
      .error (CozeError.cozeInnerError (jfield2 j "error" "code") (jfield2 j "error" "message"))
    else .ok st
  else if f.eventType = "error" then
    .error (CozeError.streamError j)
  else if f.eventType = "ping" || f.eventType = "done"
      || containsSubS f.eventType "conversation.chat" then
    .ok (if f.eventType = "done" then { st with isFinished := true } else st)
  else .ok st

/-- Interpret one frame (route.ts lines 390-550): skip frames with empty
data; parse the data as JSON, a syntax failure being caught and the frame
skipped; then the answer-delta fast path followed by the regular dispatch.
`Except.error` models the propagated (non-`SyntaxError`) exceptions. -/
def processFrame (st : State) (f : Frame) : Except CozeError State :=
  if f.data = "" then .ok st
  else
    match parseJson f.data with
    | none => .ok st
    | some j => stepRegular (stepFast st f j) f j

/-- Interpret a list of frames in order, stopping at the first error.
The inner frame loop of the source does not consult `isFinished`: every
complete frame of the current buffer is interpreted. -/
def runFrames (st : State) : List Frame → Except CozeError State
  | [] => .ok st
  | f :: fs =>
    match processFrame st f with
    | .ok st' => runFrames st' fs
    | .error e => .error e

/-- The outer read loop (route.ts lines 348-552): stop before a read when
`isFinished` is set or the chunk list is exhausted; otherwise append the
chunk to the trailing buffer, interpret every complete frame in it, and
continue with the remainder. -/
def ingestChunks (st : State) (buffer : String) : List String → Except CozeError (State × String)
  | [] => .ok (st, buffer)
  | c :: cs =>
    if st.isFinished then .ok (st, buffer)
    else
      match runFrames st (framesOf (buffer ++ c)).1 with
      | .ok st' => ingestChunks st' (framesOf (buffer ++ c)).2 cs
      | .error e => .error e

/-! ## Raw Recovery Extractor -/

/-- The top-level field scan of raw recovery (route.ts lines 578-585),
keys `content`, `text`, `answer`, `value`, `message` in that order. -/
def pickRawField (j : Json) : Option String :=
  match j with
  | Json.obj kvs => pickContentKey kvs ["content", "text", "answer", "value", "message"]
  | _ => none

/-- Try each brace-delimited candidate (route.ts lines 570-614): parse it,
take the first top-level text field, else the first nested string longer
than 20 characters after trim; unparseable candidates are skipped. -/
def extractFromBraces : List String → Option String
  | [] => none
  | c :: r =>
    match parseJson c with
    | none => extractFromBraces r
    | some j =>
      match (match pickRawField j with
             | some s => some s
             | none => findText j) with
      | some s => some s
      | none => extractFromBraces r

/-- The Raw Recovery Extractor (route.ts lines 559-634), reached when the
final response is empty: with a non-empty buffer, try the JSON candidates,
then the anchor-word pattern, then the whole buffer verbatim; with an
empty buffer, fail with the empty-response error. -/
def rawRecovery (buffer : String) : Except CozeError String :=
  if buffer.length > 0 then
    match extractFromBraces ((braceMatches buffer.data).map (fun l => (⟨l⟩ : String))) with
    | some t => .ok t
    | none =>
      match travelMatchRaw buffer with
      | some t => .ok t
      | none => .ok buffer
  else .error CozeError.emptyResponse

/-- End-of-stream finalization (route.ts lines 556-635): the final text is
`completeResponse || accumulatedResponse`; when that is empty, raw
recovery decides. -/
def finalize (completeResponse accumulatedResponse buffer : String) : Except CozeError String :=
  if (if completeResponse ≠ "" then completeResponse else accumulatedResponse).length = 0 then
    rawRecovery buffer
  else
    .ok (if completeResponse ≠ "" then completeResponse else accumulatedResponse)

/-- Number of answer-delta frames in a list: frames with non-empty,
JSON-parseable data, event type `conversation.message.delta` and payload
type `answer` — exactly the frames on which `deltaCount` is incremented. -/
def isAnswerDelta (f : Frame) : Bool :=
  f.data ≠ "" &&
    (match parseJson f.data with
     | some j => f.eventType = "conversation.message.delta" && typeIsAnswer j
     | none => false)

/-- Count of answer-delta frames. -/
def countAnswerDeltas (fs : List Frame) : Nat :=
  (fs.filter isAnswerDelta).length

/-- Decidable statement that the anchor `w[：:]` occurs nowhere in `l`
(positions at or beyond the length cannot hold an anchor). -/
def noAnchor (w l : List Char) : Bool :=
  (List.range (l.length + 1)).all (fun i => !(anchorColonAt w l i))

/-! ## Helper lemmas -/

theorem trimL_nil : trimL [] = [] := rfl

theorem ne_nil_of_trimL_ne_nil {l : List Char} (h : trimL l ≠ []) : l ≠ [] := by
  intro he; exact h (he ▸ trimL_nil)

theorem scanIdx_some {p : Nat → Bool} {i fuel j : Nat}
    (h : scanIdx p i fuel = some j) : p j = true := by
  induction fuel generalizing i with
  | zero => simp [scanIdx] at h
  | succ n ih =>
    unfold scanIdx at h
    by_cases hp : p i = true
    · simp [hp] at h; exact h ▸ hp
    · simp [hp] at h; exact ih h

theorem scanIdx_none_of {p : Nat → Bool} (hall : ∀ j, p j = false) :
    ∀ (i fuel : Nat), scanIdx p i fuel = none := by
  intro i fuel
  induction fuel generalizing i with
  | zero => rfl
  | succ n ih => unfold scanIdx; simp [hall i]; exact ih (i + 1)

theorem replaceGo_ne_nil {pat rep : List Char} (hr : rep ≠ []) :
    ∀ (fuel : Nat) (s : List Char), s ≠ [] → replaceGo pat rep fuel s ≠ [] := by
  intro fuel s hs
  match fuel, s with
  | 0, s => simpa [replaceGo] using hs
  | f + 1, [] => exact absurd rfl hs
  | f + 1, c :: r =>
    unfold replaceGo
    split
    · simp [List.append_eq_nil, hr]
    · simp

theorem replaceAllL_ne_nil {pat rep s : List Char} (hs : s ≠ []) (hr : rep ≠ []) :
    replaceAllL pat rep s ≠ [] :=
  replaceGo_ne_nil hr s.length s hs

theorem splitOnCharL_ne_nil (sep : Char) (l : List Char) :
    splitOnCharL sep l ≠ [] := by
  cases l with
  | nil => simp [splitOnCharL]
  | cons c r =>
    unfold splitOnCharL
    split
    · simp
    · split <;> simp

theorem splitOnCharL_no_sep {sep : Char} {l : List Char} (h : sep ∉ l) :
    splitOnCharL sep l = [l] := by
  induction l with
  | nil => rfl
  | cons c r ih =>
    unfold splitOnCharL
    have hc : ¬(c = sep) := by
      intro he; exact h (he ▸ List.mem_cons_self c r)
    have hr : sep ∉ r := fun hm => h (List.mem_cons_of_mem c hm)
    simp [hc, ih hr]

theorem splitOnCharL_append {sep : Char} {s t : List Char} (h : sep ∉ s) :
    splitOnCharL sep (s ++ sep :: t) = s :: splitOnCharL sep t := by
  induction s with
  | nil => simp [splitOnCharL]
  | cons c r ih =>
    have hc : ¬(c = sep) := by
      intro he; exact h (he ▸ List.mem_cons_self c r)
    have hr : sep ∉ r := fun hm => h (List.mem_cons_of_mem c hm)
    simp only [List.cons_append, splitOnCharL, hc, if_false, List.append_eq, ih hr]

/-- The regular dispatch never touches `completeResponse` or `deltaCount`,
and never resets `isFinished`. -/
theorem stepRegular_fields {st : State} {f : Frame} {j : Json} {st' : State}
    (h : stepRegular st f j = Except.ok st') :
    st'.completeResponse = st.completeResponse ∧ st'.deltaCount = st.deltaCount ∧
      (st.isFinished = true → st'.isFinished = true) := by
  unfold stepRegular at h
  split at h
  · split at h
    · rw [Except.ok.injEq] at h
      subst h
      split <;> simp
    · split at h
      · rw [Except.ok.injEq] at h; subst h; simp
      · split at h
        · cases h
        · rw [Except.ok.injEq] at h; subst h; simp
  · split at h
    · cases h
    · split at h
      · rw [Except.ok.injEq] at h
        subst h
        split <;> simp
      · rw [Except.ok.injEq] at h; subst h; simp

/-- The answer-delta branch never touches `accumulatedResponse`. -/
theorem stepFast_acc (st : State) (f : Frame) (j : Json) :
    (stepFast st f j).accumulatedResponse = st.accumulatedResponse := by
  unfold stepFast applyFastPath
  split
  · split
    · split <;> rfl
    · rfl
  · rfl

/-- The answer-delta branch never resets `isFinished`. -/
theorem stepFast_finished_mono {st : State} (f : Frame) (j : Json)
    (h : st.isFinished = true) : (stepFast st f j).isFinished = true := by
  unfold stepFast applyFastPath
  split
  · split
    · split
      · rfl
      · exact h
    · exact h
  · exact h

/-- `deltaCount` increments exactly on the answer-delta condition. -/
theorem stepFast_deltaCount (st : State) (f : Frame) (j : Json) :
    (stepFast st f j).deltaCount =
      if f.eventType = "conversation.message.delta" && typeIsAnswer j
      then st.deltaCount + 1 else st.deltaCount := by
  unfold stepFast applyFastPath
  split
  · split
    · split <;> rfl
    · rfl
  · rfl

/-- Away from a pre-count of 1 the answer-delta branch cannot write
`completeResponse`: the fast path runs only when the incremented count is
exactly 2. -/
theorem stepFast_complete_of_ne {st : State} (f : Frame) (j : Json)
    (h : st.deltaCount ≠ 1) :
    (stepFast st f j).completeResponse = st.completeResponse := by
  unfold stepFast applyFastPath
  split
  · split
    · rename_i h2
      exact absurd (by omega : st.deltaCount = 1) h
    · rfl
  · rfl

/-- On the second answer-delta the branch is exactly the fast path applied
to the bumped state. -/
theorem stepFast_trigger {st : State} {f : Frame} {j : Json}
    (h1 : (f.eventType = "conversation.message.delta" && typeIsAnswer j) = true)
    (h2 : st.deltaCount = 1) :
    stepFast st f j = applyFastPath f.data j { st with deltaCount := 2 } := by
  unfold stepFast
  simp [h1, h2]

/-- A frame with empty data is skipped. -/
theorem processFrame_empty {st : State} {f : Frame} (h : f.data = "") :
    processFrame st f = Except.ok st := by
  unfold processFrame; simp [h]

/-- A frame whose data is not valid JSON is skipped: the `SyntaxError` is
caught and the state is unchanged. -/
theorem processFrame_skip {st : State} {f : Frame}
    (h2 : parseJson f.data = none) :
    processFrame st f = Except.ok st := by
  unfold processFrame
  by_cases h1 : f.data = ""
  · simp [h1]
  · simp [h1, h2]

/-- Frame interpretation adds one to `deltaCount` exactly on answer-delta
frames. -/
theorem processFrame_deltaCount {st : State} {f : Frame} {st' : State}
    (h : processFrame st f = Except.ok st') :
    st'.deltaCount = st.deltaCount + (if isAnswerDelta f then 1 else 0) := by
  unfold processFrame at h
  by_cases h1 : f.data = ""
  · simp [h1] at h
    subst h
    simp [isAnswerDelta, h1]
  · simp only [h1, if_false] at h
    cases hp : parseJson f.data with
    | none =>
      simp [hp] at h
      subst h
      simp [isAnswerDelta, h1, hp]
    | some j =>
      simp [hp] at h
      have hf := stepRegular_fields h
      rw [hf.2.1, stepFast_deltaCount]
      simp [isAnswerDelta, h1, hp]
      split <;> simp

/-- Away from a pre-count of 1, frame interpretation preserves
`completeResponse`. -/
theorem processFrame_complete_of_ne {st : State} {f : Frame} {st' : State}
    (hd : st.deltaCount ≠ 1) (h : processFrame st f = Except.ok st') :
    st'.completeResponse = st.completeResponse := by
  unfold processFrame at h
  by_cases h1 : f.data = ""
  · simp [h1] at h; subst h; rfl
  · simp only [h1, if_false] at h
    cases hp : parseJson f.data with
    | none => simp [hp] at h; subst h; rfl
    | some j =>
      simp [hp] at h
      have hf := stepRegular_fields h
      rw [hf.1, stepFast_complete_of_ne f j hd]

/-- Frame interpretation never resets `isFinished`. -/
theorem processFrame_finished_mono {st : State} {f : Frame} {st' : State}
    (h : processFrame st f = Except.ok st') (hf : st.isFinished = true) :
    st'.isFinished = true := by
  unfold processFrame at h
  by_cases h1 : f.data = ""
  · simp [h1] at h; subst h; exact hf
  · simp only [h1, if_false] at h
    cases hp : parseJson f.data with
    | none => simp [hp] at h; subst h; exact hf
    | some j =>
      simp [hp] at h
      exact (stepRegular_fields h).2.2 (stepFast_finished_mono f j hf)

/-- Running a concatenation of frame lists is running them in sequence. -/
theorem runFrames_append (st : State) (a b : List Frame) :
    runFrames st (a ++ b) =
      match runFrames st a with
      | Except.ok st' => runFrames st' b
      | Except.error e => Except.error e := by
  induction a generalizing st with
  | nil => simp [runFrames]
  | cons f fs ih =>
    simp only [List.cons_append, runFrames]
    cases processFrame st f with
    | ok st1 => simp [ih st1]
    | error e => simp

/-- `deltaCount` after a successful run counts the answer-delta frames. -/
theorem runFrames_deltaCount {st : State} {fs : List Frame} {st' : State}
    (h : runFrames st fs = Except.ok st') :
    st'.deltaCount = st.deltaCount + countAnswerDeltas fs := by
  induction fs generalizing st with
  | nil =>
    simp [runFrames] at h
    subst h
    simp [countAnswerDeltas]
  | cons f r ih =>
    unfold runFrames at h
    cases hp : processFrame st f with
    | ok st1 =>
      rw [hp] at h
      have h1 := processFrame_deltaCount hp
      have h2 := ih h
      rw [h2, h1]
      by_cases ha : isAnswerDelta f <;> simp [countAnswerDeltas, List.filter, ha] <;> omega
    | error e => rw [hp] at h; cases h

/-- A frame that is not an answer-delta cannot touch `completeResponse`. -/
theorem processFrame_complete_of_not_delta {st : State} {f : Frame} {st' : State}
    (ha : isAnswerDelta f = false) (h : processFrame st f = Except.ok st') :
    st'.completeResponse = st.completeResponse := by
  unfold processFrame at h
  by_cases hdat : f.data = ""
  · simp [hdat] at h; subst h; rfl
  · simp only [hdat, if_false] at h
    cases hp : parseJson f.data with
    | none => simp [hp] at h; subst h; rfl
    | some j =>
      simp [hp] at h
      have hcond : (f.eventType = "conversation.message.delta" && typeIsAnswer j) = false := by
        have he : isAnswerDelta f = (f.eventType = "conversation.message.delta" && typeIsAnswer j) := by
          simp [isAnswerDelta, hdat, hp]
        rw [← he]; exact ha
      have hsf : stepFast st f j = st := by unfold stepFast; simp [hcond]
      rw [hsf] at h
      exact (stepRegular_fields h).1

/-- The once-set invariant: a state satisfying "a set `completeResponse`
implies the second answer-delta has passed" keeps satisfying it, and from
such a state one frame cannot change a set `completeResponse`. -/
theorem processFrame_once_invariant {st : State} {f : Frame} {st' : State}
    (hinv : st.completeResponse ≠ "" → 2 ≤ st.deltaCount)
    (h : processFrame st f = Except.ok st') :
    (st'.completeResponse ≠ "" → 2 ≤ st'.deltaCount) ∧
      (st.completeResponse ≠ "" → st'.completeResponse = st.completeResponse) := by
  have hd := processFrame_deltaCount h
  by_cases h1 : st.deltaCount = 1
  · have hcr : st.completeResponse = "" := by
      by_contra hne; have := hinv hne; omega
    constructor
    · intro hne'
      by_cases ha : isAnswerDelta f
      · rw [hd]; simp [ha]; omega
      · have hsame := processFrame_complete_of_not_delta (by simpa using ha) h
        rw [hsame, hcr] at hne'
        exact absurd rfl hne'
    · intro hne; exact absurd hcr hne
  · constructor
    · intro hne'
      have hcc := processFrame_complete_of_ne h1 h
      rw [hcc] at hne'
      have := hinv hne'
      rw [hd]; split <;> omega
    · intro _; exact processFrame_complete_of_ne h1 h

/-- Once-set persistence over a whole run. -/
theorem runFrames_once {st : State} {fs : List Frame} {st' : State}
    (hinv : st.completeResponse ≠ "" → 2 ≤ st.deltaCount)
    (h : runFrames st fs = Except.ok st') :
    (st'.completeResponse ≠ "" → 2 ≤ st'.deltaCount) ∧
      (st.completeResponse ≠ "" → st'.completeResponse = st.completeResponse) := by
  induction fs generalizing st with
  | nil =>
    simp [runFrames] at h
    subst h
    exact ⟨hinv, fun _ => rfl⟩
  | cons f r ih =>
    unfold runFrames at h
    cases hp : processFrame st f with
    | ok st1 =>
      rw [hp] at h
      have h1 := processFrame_once_invariant hinv hp
      have h2 := ih h1.1 h
      refine ⟨h2.1, fun hne => ?_⟩
      have e1 := h1.2 hne
      have hne1 : st1.completeResponse ≠ "" := by rw [e1]; exact hne
      rw [h2.2 hne1, e1]
    | error e => rw [hp] at h; cases h

/-- A string whose trim is non-empty is non-empty. -/
theorem ne_empty_of_trim_ne {s : String} (h : trimS s ≠ "") : s ≠ "" := by
  intro he; subst he; exact h rfl

/-! ## C1: day-count computation -/

/-- C1 counterexample: on the hyphenated day string `"7-3"` the code
computes 3 (the second part), while the claim — the maximum of the two
parsed integers — demands 7. -/
theorem c1_counterexample :
    "7-3".data.contains '-' = true ∧
      parseDays "7-3" = 3 ∧ parseDaysClaimed "7-3" = 7 ∧ (3 : Int) ≠ 7 := by
  refine ⟨by decide, by decide, by decide, by decide⟩

/-- C1 amended: for a day string `s ++ "-" ++ t` whose parts are
hyphen-free, the day count is the integer parsed from the SECOND part,
with 3 substituted when that parse fails or yields 0 (the `|| 3` also
catches a parsed 0); for a hyphen-free day string, the plain parsed
integer with the same 0-or-failure default. -/
theorem c1_amended_days :
    (∀ s t : List Char, '-' ∉ s → '-' ∉ t →
       parseDays ⟨s ++ '-' :: t⟩ =
         (match parseIntJS t with
          | some n => if n = 0 then 3 else n
          | none => 3)) ∧
    (∀ u : List Char, '-' ∉ u →
       parseDays ⟨u⟩ =
         (match parseIntJS u with
          | some n => if n = 0 then 3 else n
          | none => 3)) := by
  constructor
  · intro s t h1 h2
    have hsplit : splitOnCharL '-' (s ++ '-' :: t) = [s, t] := by
      rw [splitOnCharL_append h1, splitOnCharL_no_sep h2]
    have hcont : (s ++ '-' :: t).contains '-' = true := by
      simp [List.contains, List.elem_eq_mem]
    unfold parseDays
    simp only [hcont, if_true, hsplit, List.map_cons, List.map_nil]
    cases parseIntJS t <;> simp
  · intro u hu
    have hcont : u.contains '-' = false := by
      simp [List.contains, List.elem_eq_mem]; exact hu
    unfold parseDays
    simp only [hcont, Bool.false_eq_true, if_false]

/-- C1 amended witness: instantiating the amended statement at
`"5".data`, `"7".data` (giving 7) and at `"4".data` (giving 4). -/
theorem c1_amended_days_witness :
    parseDays ⟨"5".data ++ '-' :: "7".data⟩ = 7 ∧ parseDays ⟨"4".data⟩ = 4 := by
  constructor
  · rw [c1_amended_days.1 "5".data "7".data (by decide) (by decide)]; decide
  · rw [c1_amended_days.2 "4".data (by decide)]; decide

/-! ## C2: partial anchor matches and the cascade -/

/-- C2 counterexample: in `"旅行推荐:A"` the 旅行推荐 anchor occurs, yet the
splitter falls back to the cascade (placeholder title and highlights, the
whole text as plan), because the title pattern requires a following
行程规划 anchor; the claim demanded title `"A"` and no cascade. -/
theorem c2_counterexample :
    (findAC wTitle "旅行推荐:A".data 0).isSome = true ∧
      splitSections "旅行推荐:A" =
        { title := "你的旅行计划", plan := "旅行推荐:A", highlights := "根据AI生成" } ∧
      "你的旅行计划" ≠ "A" := by
  refine ⟨by decide, by decide, by decide⟩

/-- C2 amended: the splitter returns the three anchored extractions —
filled or empty — exactly when at least one of them is non-empty, and only
then skips the cascade; the cascade is applied when all three extractions
are empty, which can happen even though an anchor occurs (the title
pattern needs a following 行程规划 anchor, the plan pattern a following
旅行红黑榜 anchor). -/
theorem c2_amended (s : String)
    (h : ¬(extractTitle s = "" ∧ extractPlan s = "" ∧ extractHighlights s = "")) :
    splitSections s =
      { title := extractTitle s, plan := extractPlan s, highlights := extractHighlights s } := by
  unfold splitSections
  rw [if_neg h]

/-- C2 amended witness: text with only the later two anchors fills plan
and highlights, leaves title empty, and skips the cascade. -/
theorem c2_amended_witness :
    ¬(extractTitle "行程规划:B2\n旅行红黑榜:C2" = "" ∧
        extractPlan "行程规划:B2\n旅行红黑榜:C2" = "" ∧
        extractHighlights "行程规划:B2\n旅行红黑榜:C2" = "") ∧
      splitSections "行程规划:B2\n旅行红黑榜:C2" =
        { title := "", plan := "B2", highlights := "C2" } := by
  refine ⟨by decide, ?_⟩
  rw [c2_amended _ (by decide)]
  decide

/-! ## C7: splitter on already-separated text -/

/-- C7: applied to the already-separated text
`"旅行推荐:A\n行程规划:B\n旅行红黑榜:C"` the splitter returns exactly
title `"A"`, plan `"B"`, highlights `"C"`. -/
theorem c7_splitter_idempotent :
    splitSections "旅行推荐:A\n行程规划:B\n旅行红黑榜:C" =
      { title := "A", plan := "B", highlights := "C" } := by
  decide

/-! ## C9: budget string -/

/-- C9 counterexample: the non-numeric, non-empty budget `"abc"` is
interpolated by the code, while the claim demands `"预算不限"` for a
non-numeric budget. -/
theorem c9_counterexample :
    parseIntJS "abc".data = none ∧
      (parseCozeResponseToItinerary "some text"
          { location := "北京", days := "3", budget := some "abc" }).budget
        = "预算约abc元人民币" ∧
      "预算约abc元人民币" ≠ "预算不限" := by
  refine ⟨by decide, by decide, by decide⟩

/-- C9 amended: the budget field interpolates ANY non-empty budget string
(numeric or not), and is `"预算不限"` exactly when the budget is absent or
empty. -/
theorem c9_budget (cozeText : String) (params : TravelParams) :
    (parseCozeResponseToItinerary cozeText params).budget =
      match params.budget with
      | some b => if b ≠ "" then "预算约" ++ b ++ "元人民币" else "预算不限"
      | none => "预算不限" := by
  unfold parseCozeResponseToItinerary
  rfl

/-! ## C8: paragraph cascade -/

/-- `noAnchor` really rules out the anchor at every position. -/
theorem anchorColonAt_false_of_noAnchor {w l : List Char} (hw : w ≠ [])
    (h : noAnchor w l = true) : ∀ i, anchorColonAt w l i = false := by
  intro i
  by_cases hi : i < l.length + 1
  · have := List.all_eq_true.mp h i (List.mem_range.mpr hi)
    simpa using this
  · have hd : l.drop i = [] := List.drop_eq_nil_of_le (by omega)
    unfold anchorColonAt isPrefixAt
    rw [hd]
    cases w with
    | nil => exact absurd rfl hw
    | cons a w' => simp [List.isPrefixOf]

/-- C8: on text with none of the three anchors and at least three
blank-line paragraphs, the splitter assigns the first paragraph to title,
the middle paragraphs joined by blank lines to plan, and the last
paragraph to highlights. -/
theorem c8_paragraph_cascade (s : String)
    (hT : noAnchor wTitle s.data = true)
    (hP : noAnchor wPlan s.data = true)
    (hH : noAnchor wHigh s.data = true)
    (hlen : 3 ≤ (splitParas s).length) :
    splitSections s =
      { title := (splitParas s).headD ""
        plan := joinSep "\n\n" (((splitParas s).drop 1).dropLast)
        highlights := (splitParas s).getLastD "" } := by
  have hT' := anchorColonAt_false_of_noAnchor (by decide) hT
  have hP' := anchorColonAt_false_of_noAnchor (by decide) hP
  have hH' := anchorColonAt_false_of_noAnchor (by decide) hH
  have hT0 : extractTitle s = "" := by
    unfold extractTitle
    rw [scanIdx_none_of (fun j => by simp [hT' j])]
  have hP0 : extractPlan s = "" := by
    unfold extractPlan
    rw [scanIdx_none_of (fun j => by simp [hP' j])]
  have hH0 : extractHighlights s = "" := by
    unfold extractHighlights findAC
    rw [scanIdx_none_of (fun j => hH' j)]
  unfold splitSections
  rw [hT0, hP0, hH0, if_pos ⟨rfl, rfl, rfl⟩, if_pos hlen]

/-- C8 witness: the spec's own example `"P1\n\nP2\n\nP3"`. -/
theorem c8_paragraph_cascade_witness :
    (noAnchor wTitle "P1\n\nP2\n\nP3".data = true ∧
      3 ≤ (splitParas "P1\n\nP2\n\nP3").length) ∧
    splitSections "P1\n\nP2\n\nP3" = { title := "P1", plan := "P2", highlights := "P3" } := by
  refine ⟨⟨by decide, by decide⟩, ?_⟩
  rw [c8_paragraph_cascade "P1\n\nP2\n\nP3" (by decide) (by decide) (by decide) (by decide)]
  decide

/-! ## C5: raw recovery and the empty-response error -/

theorem trim_ne_of_long {s : String} (h : 20 < (trimS s).length) : trimS s ≠ "" := by
  intro he; rw [he] at h; simp at h

/-- Any string selected by the content-key probe has non-empty trim. -/
theorem pickContentKey_some {kvs : List (String × Json)} :
    ∀ {keys : List String} {s : String},
      pickContentKey kvs keys = some s → trimS s ≠ "" := by
  intro keys
  induction keys with
  | nil => intro s h; simp [pickContentKey] at h
  | cons k ks ih =>
    intro s h
    unfold pickContentKey at h
    split at h
    · split at h
      · rename_i hcond
        injection h with h
        subst h
        exact hcond
      · exact ih h
    · exact ih h

/-- Any string selected by `pickRawField` has non-empty trim. -/
theorem pickRawField_some {j : Json} {s : String}
    (h : pickRawField j = some s) : trimS s ≠ "" := by
  unfold pickRawField at h
  split at h
  · exact pickContentKey_some h
  · cases h

/-- Any string selected by the long-string probe has trimmed length over
20. -/
theorem strLong_some {v : Json} {s : String} (h : strLong v = some s) :
    20 < (trimS s).length := by
  unfold strLong at h
  split at h
  · split at h
    · rename_i hl
      injection h with h
      subst h
      exact hl
    · cases h
  · cases h

/-- Any string returned by the bounded search has trimmed length over 20:
induction on the fuel, one component per mutual function. -/
theorem ftGo_trim_long :
    ∀ (fuel : Nat),
      (∀ (j : Json) (s : String), ftGo fuel j = some s → 20 < (trimS s).length) ∧
      (∀ (kvs : List (String × Json)) (s : String),
        ftGoPairs fuel kvs = some s → 20 < (trimS s).length) ∧
      (∀ (es : List Json) (s : String),
        ftGoElems fuel es = some s → 20 < (trimS s).length) := by
  intro fuel
  induction fuel with
  | zero =>
    refine ⟨?_, ?_, ?_⟩
    · intro j s h; simp [ftGo] at h
    · intro kvs s h; simp [ftGoPairs] at h
    · intro es s h; simp [ftGoElems] at h
  | succ n ih =>
    obtain ⟨ihj, ihp, ihe⟩ := ih
    refine ⟨?_, ?_, ?_⟩
    · intro j s hf
      match j with
      | Json.obj kvs => exact ihp kvs s (by simpa [ftGo] using hf)
      | Json.arr es => exact ihe es s (by simpa [ftGo] using hf)
      | Json.null => simp [ftGo] at hf
      | Json.bool b => simp [ftGo] at hf
      | Json.num m e => simp [ftGo] at hf
      | Json.str t => simp [ftGo] at hf
    · intro kvs s hf
      match kvs with
      | [] => simp [ftGoPairs] at hf
      | (k, v) :: r =>
        unfold ftGoPairs at hf
        split at hf
        · rename_i s0 heq
          injection hf with hf
          subst hf
          exact strLong_some heq
        · split at hf
          · rename_i s0 heq
            injection hf with hf
            subst hf
            split at heq
            · exact ihj v s0 heq
            · cases heq
          · exact ihp r s hf
    · intro es s hf
      match es with
      | [] => simp [ftGoElems] at hf
      | v :: r =>
        unfold ftGoElems at hf
        split at hf
        · rename_i s0 heq
          injection hf with hf
          subst hf
          exact strLong_some heq
        · split at hf
          · rename_i s0 heq
            injection hf with hf
            subst hf
            split at heq
            · exact ihj v s0 heq
            · cases heq
          · exact ihe r s hf

/-- Any string produced by the brace-candidate loop is non-empty. -/
theorem extractFromBraces_ne :
    ∀ (cands : List String) (s : String), extractFromBraces cands = some s → s ≠ "" := by
  intro cands
  induction cands with
  | nil => intro s h; simp [extractFromBraces] at h
  | cons c r ih =>
    intro s h
    unfold extractFromBraces at h
    split at h
    · exact ih s h
    · rename_i j hj
      split at h
      · rename_i s0 heq
        injection h with h
        subst h
        split at heq
        · rename_i s1 hpick
          injection heq with heq
          subst heq
          exact ne_empty_of_trim_ne (pickRawField_some hpick)
        · have hlong := (ftGo_trim_long (jsonSize j)).1 j s0 heq
          exact ne_empty_of_trim_ne (trim_ne_of_long hlong)
      · exact ih s h

/-- A successful raw anchor-word match is non-empty: it starts with the
旅行推荐 word. -/
theorem travelMatchRaw_ne {b t : String} (h : travelMatchRaw b = some t) : t ≠ "" := by
  unfold travelMatchRaw at h
  split at h
  · rename_i p hscan
    injection h with h
    subst h
    have hp := scanIdx_some hscan
    simp only [Bool.and_eq_true] at hp
    have hpre := hp.1
    intro he
    have hdrop : b.data.drop p = [] := congrArg String.data he
    unfold isPrefixAt at hpre
    rw [hdrop] at hpre
    exact absurd hpre (by decide)
  · cases h

/-- C5: with nothing accumulated, no complete response and an empty
buffer, ingestion fails with the empty-response error; with any non-empty
buffer, Raw Recovery returns some non-empty final text — the whole buffer
verbatim when neither the JSON candidates nor the anchor-word pattern
yield anything. -/
theorem c5_empty_and_recovery :
    finalize "" "" "" = Except.error CozeError.emptyResponse ∧
    (∀ buffer : String, buffer ≠ "" →
       ∃ t, finalize "" "" buffer = Except.ok t ∧ t ≠ "") ∧
    (∀ buffer : String, buffer ≠ "" →
       extractFromBraces ((braceMatches buffer.data).map (fun l => (⟨l⟩ : String))) = none →
       travelMatchRaw buffer = none →
       finalize "" "" buffer = Except.ok buffer) := by
  have hfin : ∀ buffer : String, finalize "" "" buffer = rawRecovery buffer := by
    intro buffer
    unfold finalize
    simp
  refine ⟨by rw [hfin]; rfl, ?_, ?_⟩
  · intro buffer hb
    have hlen : 0 < buffer.length := by
      rcases buffer with ⟨l⟩
      cases l with
      | nil => exact absurd rfl hb
      | cons c r => simp [String.length]
    rw [hfin]
    unfold rawRecovery
    rw [if_pos hlen]
    cases hE : extractFromBraces ((braceMatches buffer.data).map (fun l => (⟨l⟩ : String))) with
    | some t =>
      refine ⟨t, ?_, extractFromBraces_ne _ t hE⟩
      simp only [hE]
    | none =>
      cases hT : travelMatchRaw buffer with
      | some t =>
        refine ⟨t, ?_, travelMatchRaw_ne hT⟩
        simp only [hE, hT]
      | none =>
        refine ⟨buffer, ?_, hb⟩
        simp only [hE, hT]
  · intro buffer hb hE hT
    have hlen : 0 < buffer.length := by
      rcases buffer with ⟨l⟩
      cases l with
      | nil => exact absurd rfl hb
      | cons c r => simp [String.length]
    rw [hfin]
    unfold rawRecovery
    rw [if_pos hlen]
    simp only [hE, hT]

/-- C5 witness: the empty-buffer conjunct needs no instance; the non-empty
conjuncts applied at the unstructured buffer `"xy"`, where recovery falls
back to the whole buffer verbatim. -/
theorem c5_empty_and_recovery_witness :
    (∃ t, finalize "" "" "xy" = Except.ok t ∧ t ≠ "") ∧
      finalize "" "" "xy" = Except.ok "xy" := by
  refine ⟨c5_empty_and_recovery.2.1 "xy" (by decide), ?_⟩
  exact c5_empty_and_recovery.2.2 "xy" (by decide) (by decide) (by decide)

/-! ## C4: malformed JSON is skipped, other errors propagate -/

/-- C4: a frame whose non-empty data is not valid JSON is skipped with the
state unchanged; removing it from a stream does not change the run at all
(ingestion completes from the well-formed frames alone); and an error
raised while interpreting a frame — the protocol errors, the only modelled
exceptions besides the caught `SyntaxError` — propagates and fails the
whole ingestion. -/
theorem c4_malformed_json :
    (∀ (st : State) (f : Frame), f.data ≠ "" → parseJson f.data = none →
       processFrame st f = Except.ok st) ∧
    (∀ (st : State) (fs1 fs2 : List Frame) (f : Frame),
       parseJson f.data = none →
       runFrames st (fs1 ++ f :: fs2) = runFrames st (fs1 ++ fs2)) ∧
    (∀ (st st' : State) (fs1 fs2 : List Frame) (f : Frame) (e : CozeError),
       runFrames st fs1 = Except.ok st' →
       processFrame st' f = Except.error e →
       runFrames st (fs1 ++ f :: fs2) = Except.error e) := by
  refine ⟨?_, ?_, ?_⟩
  · intro st f _ h2
    exact processFrame_skip h2
  · intro st fs1 fs2 f h2
    rw [runFrames_append, runFrames_append]
    cases h : runFrames st fs1 with
    | ok st1 =>
      show runFrames st1 (f :: fs2) = runFrames st1 fs2
      rw [runFrames, processFrame_skip h2]
    | error e => rfl
  · intro st st' fs1 fs2 f e h1 h2
    rw [runFrames_append, h1]
    show runFrames st' (f :: fs2) = Except.error e
    rw [runFrames, h2]

/-- C4 witness: a malformed frame is skipped and removable from a
two-frame stream, and a concrete error-event frame fails the run. -/
theorem c4_malformed_json_witness :
    processFrame initState { eventType := "message", data := "oops \x7b" } = Except.ok initState ∧
    runFrames initState
        ([{ eventType := "message", data := "\x7b\"content\":\"w1\"\x7d" }] ++
          { eventType := "message", data := "oops \x7b" } ::
            [{ eventType := "message", data := "\x7b\"content\":\"w2\"\x7d" }]) =
      runFrames initState
        ([{ eventType := "message", data := "\x7b\"content\":\"w1\"\x7d" }] ++
          [{ eventType := "message", data := "\x7b\"content\":\"w2\"\x7d" }]) ∧
    runFrames initState ([] ++ { eventType := "error", data := "\x7b\"code\":2\x7d" } :: []) =
      Except.error (CozeError.streamError (Json.obj [("code", Json.num 2 0)])) := by
  refine ⟨?_, ?_, ?_⟩
  · exact c4_malformed_json.1 initState _ (by decide) rfl
  · exact c4_malformed_json.2.1 initState _ _ _ rfl
  · exact c4_malformed_json.2.2 initState initState [] [] _ _ rfl rfl

/-! ## C6: completeResponse is assigned at most once -/

/-- C6: over any run from the initial state, once `completeResponse` is
set, no later frames — including further answer-deltas — overwrite it. -/
theorem c6_complete_once (fs fs' : List Frame) (st st' : State)
    (h1 : runFrames initState fs = Except.ok st)
    (h2 : runFrames st fs' = Except.ok st')
    (hset : st.completeResponse ≠ "") :
    st'.completeResponse = st.completeResponse := by
  have hinv0 : initState.completeResponse ≠ "" → 2 ≤ initState.deltaCount := by
    intro h; exact absurd rfl h
  have hinv := (runFrames_once hinv0 h1).1
  exact (runFrames_once hinv h2).2 hset

/-- C6 witness: after the fast path fires on the second answer-delta, a
third answer-delta appends to the accumulator but leaves
`completeResponse` unchanged. -/
theorem c6_complete_once_witness :
    ({ deltaCount := 3, completeResponse := "旅行推荐:P 行程规划:Q 旅行红黑榜:R\"\x7d",
        accumulatedResponse := "m1旅行推荐:P 行程规划:Q 旅行红黑榜:Rm3",
        isFinished := true } : State).completeResponse =
      ({ deltaCount := 2, completeResponse := "旅行推荐:P 行程规划:Q 旅行红黑榜:R\"\x7d",
          accumulatedResponse := "m1旅行推荐:P 行程规划:Q 旅行红黑榜:R",
          isFinished := true } : State).completeResponse :=
  c6_complete_once
    [{ eventType := "conversation.message.delta",
       data := "\x7b\"type\":\"answer\",\"content\":\"m1\"\x7d" },
     { eventType := "conversation.message.delta",
       data := "\x7b\"type\":\"answer\",\"content\":\"旅行推荐:P 行程规划:Q 旅行红黑榜:R\"\x7d" }]
    [{ eventType := "conversation.message.delta",
       data := "\x7b\"type\":\"answer\",\"content\":\"m3\"\x7d" }]
    { deltaCount := 2, completeResponse := "旅行推荐:P 行程规划:Q 旅行红黑榜:R\"\x7d",
      accumulatedResponse := "m1旅行推荐:P 行程规划:Q 旅行红黑榜:R", isFinished := true }
    { deltaCount := 3, completeResponse := "旅行推荐:P 行程规划:Q 旅行红黑榜:R\"\x7d",
      accumulatedResponse := "m1旅行推荐:P 行程规划:Q 旅行红黑榜:Rm3", isFinished := true }
    rfl rfl (by decide)

/-! ## C3: the fast path fires exactly on the second answer-delta -/

/-- A payload of type `answer` has message type `answer`. -/
theorem messageTypeOf_answer {j : Json} (h : typeIsAnswer j = true) :
    messageTypeOf j = Json.str "answer" := by
  unfold typeIsAnswer at h
  unfold messageTypeOf
  split at h
  · rename_i s heq
    have hs : s = "answer" := by simpa using h
    subst hs
    rw [heq]
    simp [jsTruthy]
  · cases h

/-- C3: reading from the initial state, an answer-delta frame arriving
after exactly one previous answer-delta triggers the fast path — setting
`completeResponse` to the extracted value and `isFinished` — while an
answer-delta arriving after any other number of answer-deltas (the first,
the third, ...) leaves `completeResponse` unchanged. -/
theorem c3_second_delta (fs : List Frame) (st : State) (f : Frame) (j : Json)
    (hrun : runFrames initState fs = Except.ok st)
    (hdata : ¬(f.data = ""))
    (hjson : parseJson f.data = some j)
    (hev : f.eventType = "conversation.message.delta")
    (hans : typeIsAnswer j = true) :
    (countAnswerDeltas fs = 1 →
      ∀ t, fastExtract f.data j = some t →
        ∃ st', processFrame st f = Except.ok st' ∧
          st'.completeResponse = t ∧ st'.isFinished = true) ∧
    (countAnswerDeltas fs ≠ 1 →
      ∀ st', processFrame st f = Except.ok st' →
        st'.completeResponse = st.completeResponse) := by
  have hdc : st.deltaCount = countAnswerDeltas fs := by
    have := runFrames_deltaCount hrun
    simpa [initState] using this
  constructor
  · intro hcount t hext
    have hcond : (f.eventType = "conversation.message.delta" && typeIsAnswer j) = true := by
      simp [hev, hans]
    have h1 : st.deltaCount = 1 := by omega
    have hsf := stepFast_trigger hcond h1
    have hap : applyFastPath f.data j { st with deltaCount := 2 } =
        { st with deltaCount := 2, completeResponse := t, isFinished := true } := by
      unfold applyFastPath
      rw [hext]
    have hcont : (f.eventType = "message"
        || containsSubS f.eventType "conversation.message.delta") = true := by
      rw [hev]; decide
    have hm1 : (isStrEq (messageTypeOf j) "message.delta"
        || isStrEq (messageTypeOf j) "answer") = true := by
      rw [messageTypeOf_answer hans]; decide
    by_cases hdcv : deltaContentOf j ≠ ""
    · refine ⟨{ st with deltaCount := 2, completeResponse := t, isFinished := true, accumulatedResponse := st.accumulatedResponse ++ deltaContentOf j }, ?_, rfl, rfl⟩
      unfold processFrame
      rw [if_neg hdata, hjson]
      show stepRegular (stepFast st f j) f j = _
      rw [hsf, hap]
      unfold stepRegular
      rw [if_pos hcont, if_pos hm1, if_pos hdcv]
    · refine ⟨{ st with deltaCount := 2, completeResponse := t, isFinished := true }, ?_, rfl, rfl⟩
      unfold processFrame
      rw [if_neg hdata, hjson]
      show stepRegular (stepFast st f j) f j = _
      rw [hsf, hap]
      unfold stepRegular
      rw [if_pos hcont, if_pos hm1, if_neg hdcv]
  · intro hcount st' hp
    have h1 : st.deltaCount ≠ 1 := by omega
    exact processFrame_complete_of_ne h1 hp

/-- C3 witness: with one answer-delta already read, the next answer-delta
carries the three-anchor text and the fast path sets the complete
response. -/
theorem c3_second_delta_witness :
    ∃ st', processFrame
        { deltaCount := 1, completeResponse := "", accumulatedResponse := "u1",
          isFinished := false }
        { eventType := "conversation.message.delta",
          data := "\x7b\"type\":\"answer\",\"content\":\"旅行推荐:U 行程规划:V 旅行红黑榜:W\"\x7d" }
        = Except.ok st' ∧
      st'.completeResponse = "旅行推荐:U 行程规划:V 旅行红黑榜:W\"\x7d" ∧
      st'.isFinished = true :=
  (c3_second_delta
    [{ eventType := "conversation.message.delta",
       data := "\x7b\"type\":\"answer\",\"content\":\"u1\"\x7d" }]
    { deltaCount := 1, completeResponse := "", accumulatedResponse := "u1",
      isFinished := false }
    { eventType := "conversation.message.delta",
      data := "\x7b\"type\":\"answer\",\"content\":\"旅行推荐:U 行程规划:V 旅行红黑榜:W\"\x7d" }
    (Json.obj [("type", Json.str "answer"),
               ("content", Json.str "旅行推荐:U 行程规划:V 旅行红黑榜:W")])
    rfl (by decide) rfl rfl rfl).1 rfl
    "旅行推荐:U 行程规划:V 旅行红黑榜:W\"\x7d" rfl

/-! ## C10: finished stops reads, not buffered-frame interpretation -/

/-- C10: a set `isFinished` stops the outer read loop before the next
chunk; but within one chunk every complete frame is interpreted, so an
error-event frame later in the same chunk fails the whole ingestion even
though `completeResponse` and `isFinished` were already set by an earlier
frame of that chunk. -/
theorem c10_finished_chunk (chunk : String) (fs1 fs2 : List Frame)
    (f : Frame) (st' : State) (e : CozeError)
    (hframes : framesOf chunk = (fs1 ++ f :: fs2, ""))
    (hrun : runFrames initState fs1 = Except.ok st')
    (hfin : st'.isFinished = true)
    (hset : st'.completeResponse ≠ "")
    (herr : processFrame st' f = Except.error e) :
    (∀ (st0 : State) (buffer : String) (chunks : List String),
       st0.isFinished = true → ingestChunks st0 buffer chunks = Except.ok (st0, buffer)) ∧
    ingestChunks initState "" [chunk] = Except.error e := by
  constructor
  · intro st0 buffer chunks h0
    cases chunks with
    | nil => rfl
    | cons c cs =>
      unfold ingestChunks
      rw [if_pos h0]
  · have hrunAll : runFrames initState (fs1 ++ f :: fs2) = Except.error e := by
      rw [runFrames_append, hrun]
      show runFrames st' (f :: fs2) = Except.error e
      rw [runFrames, herr]
    unfold ingestChunks
    rw [if_neg (by simp [initState])]
    have hb : ("" ++ chunk) = chunk := by
      rcases chunk with ⟨l⟩
      rfl
    rw [hb, hframes]
    show (match runFrames initState (fs1 ++ f :: fs2) with
          | Except.ok st1 => ingestChunks st1 (fs1 ++ f :: fs2, "").2 []
          | Except.error e => Except.error e) = Except.error e
    rw [hrunAll]

/-- C10 witness: one chunk holding three frames — two answer-deltas, the
second of which sets `completeResponse` and `isFinished`, then an error
event — fails the whole ingestion. -/
theorem c10_finished_chunk_witness :
    ingestChunks initState ""
        ["event: conversation.message.delta\ndata: \x7b\"type\":\"answer\",\"content\":\"a\"\x7d\n\nevent: conversation.message.delta\ndata: \x7b\"type\":\"answer\",\"content\":\"旅行推荐:KK 行程规划:LL 旅行红黑榜:MM\"\x7d\n\nevent: error\ndata: \x7b\"code\":7\x7d\n\n"]
      = Except.error (CozeError.streamError (Json.obj [("code", Json.num 7 0)])) :=
  (c10_finished_chunk
    "event: conversation.message.delta\ndata: \x7b\"type\":\"answer\",\"content\":\"a\"\x7d\n\nevent: conversation.message.delta\ndata: \x7b\"type\":\"answer\",\"content\":\"旅行推荐:KK 行程规划:LL 旅行红黑榜:MM\"\x7d\n\nevent: error\ndata: \x7b\"code\":7\x7d\n\n"
    [{ eventType := "conversation.message.delta",
       data := "\x7b\"type\":\"answer\",\"content\":\"a\"\x7d" },
     { eventType := "conversation.message.delta",
       data := "\x7b\"type\":\"answer\",\"content\":\"旅行推荐:KK 行程规划:LL 旅行红黑榜:MM\"\x7d" }]
    []
    { eventType := "error", data := "\x7b\"code\":7\x7d" }
    { deltaCount := 2,
      completeResponse := "旅行推荐:KK 行程规划:LL 旅行红黑榜:MM\"\x7d",
      accumulatedResponse := "a旅行推荐:KK 行程规划:LL 旅行红黑榜:MM",
      isFinished := true }
    (CozeError.streamError (Json.obj [("code", Json.num 7 0)]))
    rfl rfl rfl (by decide) rfl).2

end Travel
